import Mathlib

/-!
# Verification of the libansr byte-stream interpreter

A shallow embedding of `src/ansr.c` / `src/ansr.h`: the escape-sequence
state machine (`ansr_write`), the SGR display-state tracker (`_ansr_sgr`),
the parameter accumulator (`_ansr_params_append_accumulator`) and the
auto-growing grid buffer (`_ansr_add_char`).

Modelling conventions:
* C `unsigned` (32-bit) arithmetic is `Nat` reduced modulo `2^32` (`u32n`
  for naturals, `u32i` for possibly negative intermediate `Int` values).
* parameter-list elements are C `char` (signed, 8-bit); the value stored by
  `_ansr_params_append` is the two's-complement reinterpretation `sc` of the
  low byte of the accumulator.
* a failed `assert()` aborts the process; evaluation that reaches a failing
  assertion is modelled as `none`.  Allocation (`realloc`) is assumed to
  succeed, so `-ENOMEM` paths do not arise.
* the row-pointer array is a total function `Nat → Option AnsrRow`
  (`none` = NULL row pointer / slot outside the allocation); a row's cell
  array is a total function `Nat → AnsrChar`.  The `allocated_height` /
  `allocated_width` bookkeeping is modelled exactly as the source computes
  it; the source's accesses beyond those bounds (which this bookkeeping can
  permit) are out-of-bounds in C and simply update the total function here.
* `writes` is a ghost log of every cell store performed by
  `_ansr_add_char`, in program order: `(row, column, stored cell)`.
-/

set_option maxRecDepth 4000

/-- The eight base colors of `ansr_color_t` (values 0..7 in the C enum). -/
inductive AnsrColor
  | black
  | red
  | green
  | yellow
  | blue
  | magenta
  | cyan
  | white
deriving DecidableEq, Repr

/-- `p` maps the C enum value `0..7` onto `AnsrColor` (used for `p - 30` / `p - 40`). -/
def colorOfNat : Nat → AnsrColor
  | 0 => .black
  | 1 => .red
  | 2 => .green
  | 3 => .yellow
  | 4 => .blue
  | 5 => .magenta
  | 6 => .cyan
  | _ => .white

/-- The bit-field attribute set of `ansr_disp_state_t.attrs`; all bits are 0 after `calloc`. -/
structure AnsrAttrs where
  bold : Bool := false
  faint : Bool := false
  italic : Bool := false
  underline : Bool := false
  slow_blink : Bool := false
  rapid_blink : Bool := false
  invert : Bool := false
  conceal : Bool := false
  strikeout : Bool := false
  double_underline : Bool := false
  proportional : Bool := false
  framed : Bool := false
  encircled : Bool := false
  overlined : Bool := false
  ideogram_underline : Bool := false
  ideogram_double_underline : Bool := false
  ideogram_overline : Bool := false
  ideogram_double_overline : Bool := false
  ideogram_stress : Bool := false
  superscript : Bool := false
  subscript : Bool := false
deriving DecidableEq, Repr

/-- `ansr_disp_state_t`: foreground/background color pair plus the attribute set.
The all-zero value (black on black, no attributes) is what `calloc`/`memset` produce. -/
structure AnsrDispState where
  fg : AnsrColor := .black
  bg : AnsrColor := .black
  attrs : AnsrAttrs := {}
deriving DecidableEq, Repr

/-- `ansr_char_t`: one grid cell, a character code plus the captured display state. -/
structure AnsrChar where
  code : Nat := 0
  disp : AnsrDispState := {}
deriving DecidableEq, Repr

/-- `ansr_row_t`: logical width, allocated width, and the cell storage. -/
structure AnsrRow where
  width : Nat
  allocated_width : Nat
  cols : Nat → AnsrChar

/-- `ansr_state_t`: the parser states of the escape-sequence state machine. -/
inductive ParserState
  | input
  | eof
  | escape
  | csi
deriving DecidableEq, Repr

/-- `_ansr_t` merged with its public `ansr_t` part: configuration, parser state,
display state, cursor, parameter accumulator/list, and the grid, plus the
ghost `writes` log of cell stores. -/
structure Ansr where
  screen_width : Nat
  screen_lines : Nat
  state : ParserState
  disp : AnsrDispState
  cursor_x : Nat
  cursor_y : Nat
  params : List Int
  accumulator : Nat
  height : Nat
  allocated_height : Nat
  rows : Nat → Option AnsrRow
  writes : List (Nat × Nat × AnsrChar)

/-- 32-bit unsigned reduction for `Nat`. -/
def u32n (n : Nat) : Nat := n % 4294967296

/-- 32-bit unsigned reinterpretation of an `Int` (C conversion to `unsigned`). -/
def u32i (i : Int) : Nat := (i % 4294967296).toNat

/-- Two's-complement reinterpretation of a byte value as a C signed `char`. -/
def sc (n : Nat) : Int := if n < 128 then (n : Int) else (n : Int) - 256

/-- `ansr_new`: `calloc` zeroes every field; the configuration is copied in
(defaults are 80×24 when the caller passes NULL). -/
def ansrNew (w l : Nat) : Ansr :=
  { screen_width := w
    screen_lines := l
    state := .input
    disp := {}
    cursor_x := 0
    cursor_y := 0
    params := []
    accumulator := 0
    height := 0
    allocated_height := 0
    rows := fun _ => none
    writes := [] }

/-- Read a row; a NULL / unallocated slot reads as an empty zero row. -/
def getRow (a : Ansr) (r : Nat) : AnsrRow :=
  (a.rows r).getD { width := 0, allocated_width := 0, cols := fun _ => {} }

/-- Read the cell at `(r, c)`. -/
def getCell (a : Ansr) (r c : Nat) : AnsrChar :=
  (getRow a r).cols c

/-- `_ansr_sgr_reset`: the baseline display state, foreground white. -/
def sgrBaseline : AnsrDispState := { fg := .white }

/-- One arm of the `switch (p)` in `_ansr_sgr`.  `none` models the
`assert(0)` arms (unimplemented SGR codes); a value that matches no case
falls out of the switch unchanged. -/
def sgrStep (d : AnsrDispState) (p : Int) : Option AnsrDispState :=
  if p = 0 then some sgrBaseline
  else if p = 1 then some { d with attrs := { d.attrs with bold := true } }
  else if p = 2 then some { d with attrs := { d.attrs with faint := true } }
  else if p = 3 then some { d with attrs := { d.attrs with italic := true } }
  else if p = 4 then some { d with attrs := { d.attrs with underline := true } }
  else if p = 5 then some { d with attrs := { d.attrs with slow_blink := true } }
  else if p = 6 then some { d with attrs := { d.attrs with rapid_blink := true } }
  else if p = 7 then some { d with attrs := { d.attrs with invert := true } }
  else if p = 8 then some { d with attrs := { d.attrs with conceal := true } }
  else if p = 9 then some { d with attrs := { d.attrs with strikeout := true } }
  else if 10 ≤ p ∧ p ≤ 20 then none
  else if p = 21 then some { d with attrs := { d.attrs with double_underline := true } }
  else if p = 22 then some { d with attrs := { d.attrs with bold := false } }
  else if p = 23 then some { d with attrs := { d.attrs with italic := false } }
  else if p = 24 then
    some { d with attrs := { d.attrs with underline := false, double_underline := false } }
  else if p = 25 then
    some { d with attrs := { d.attrs with slow_blink := false, rapid_blink := false } }
  else if p = 26 then some { d with attrs := { d.attrs with proportional := false } }
  else if p = 27 then some { d with attrs := { d.attrs with invert := false } }
  else if p = 28 then some { d with attrs := { d.attrs with conceal := false } }
  else if p = 29 then some { d with attrs := { d.attrs with strikeout := false } }
  else if 30 ≤ p ∧ p ≤ 37 then some { d with fg := colorOfNat (p - 30).toNat }
  else if p = 38 ∨ p = 39 then none
  else if 40 ≤ p ∧ p ≤ 47 then some { d with bg := colorOfNat (p - 40).toNat }
  else if p = 48 ∨ p = 49 then none
  else if p = 50 then some { d with attrs := { d.attrs with proportional := false } }
  else if p = 51 then some { d with attrs := { d.attrs with framed := true } }
  else if p = 52 then some { d with attrs := { d.attrs with encircled := true } }
  else if p = 53 then some { d with attrs := { d.attrs with overlined := true } }
  else if p = 54 then
    some { d with attrs := { d.attrs with framed := false, encircled := false } }
  else if p = 55 then some { d with attrs := { d.attrs with overlined := false } }
  else if p = 58 ∨ p = 59 then none
  else if p = 60 then some { d with attrs := { d.attrs with ideogram_underline := true } }
  else if p = 61 then
    some { d with attrs := { d.attrs with ideogram_double_underline := true } }
  else if p = 62 then some { d with attrs := { d.attrs with ideogram_overline := true } }
  else if p = 63 then
    some { d with attrs := { d.attrs with ideogram_double_overline := true } }
  else if p = 64 then some { d with attrs := { d.attrs with ideogram_stress := true } }
  else if p = 65 then
    some { d with attrs := { d.attrs with
      ideogram_underline := false, ideogram_double_underline := false,
      ideogram_overline := false, ideogram_double_overline := false,
      ideogram_stress := false } }
  else if p = 73 then some { d with attrs := { d.attrs with superscript := true } }
  else if p = 74 then some { d with attrs := { d.attrs with subscript := true } }
  else if p = 75 then
    some { d with attrs := { d.attrs with superscript := false, subscript := false } }
  else if (90 ≤ p ∧ p ≤ 97) ∨ (100 ≤ p ∧ p ≤ 107) then none
  else some d

/-- The `for` loop of `_ansr_sgr`, applying one parameter at a time. -/
def sgrRunList : AnsrDispState → List Int → Option AnsrDispState
  | d, [] => some d
  | d, p :: ps =>
    match sgrStep d p with
    | none => none
    | some d' => sgrRunList d' ps

/-- `_ansr_sgr`: an empty parameter list is treated as a reset, otherwise the
parameters are applied left to right. -/
def sgrRun (d : AnsrDispState) (ps : List Int) : Option AnsrDispState :=
  if ps = [] then some sgrBaseline else sgrRunList d ps

/-- The soft-wrap prologue of `_ansr_add_char`. -/
def wrapCursor (a : Ansr) : Ansr :=
  if a.screen_width ≠ 0 ∧ a.cursor_x = a.screen_width then
    { a with cursor_x := 0, cursor_y := u32n (a.cursor_y + 1) }
  else a

/-- The "expand rows" step: one doubling `MAX(ANSR_MIN_ALLOC_ROWS, allocated * 2)`.
New row-pointer slots are zeroed (`none`); the row function is already total. -/
def growRows (a : Ansr) : Ansr :=
  if a.allocated_height ≤ a.cursor_y then
    { a with allocated_height := u32n (max 64 (a.allocated_height * 2)) }
  else a

/-- The logical-height update of `_ansr_add_char`. -/
def bumpHeight (a : Ansr) : Ansr :=
  if a.height ≤ a.cursor_y then { a with height := u32n (a.cursor_y + 1) } else a

/-- The "expand cols" step: (re)allocate the cursor row when it is NULL or its
allocated width does not cover the cursor column, to
`MAX(old_width * 2, ANSR_MIN_ALLOC_COLS)`, zero-filling the new slots. -/
def growCols (a : Ansr) : Ansr :=
  match a.rows a.cursor_y with
  | none =>
    { a with rows := fun i =>
        if i = a.cursor_y then
          some { width := 0, allocated_width := u32n (max (0 * 2) 80), cols := fun _ => {} }
        else a.rows i }
  | some row =>
    if row.allocated_width ≤ a.cursor_x then
      { a with rows := fun i =>
          if i = a.cursor_y then
            some { row with
              allocated_width := u32n (max (row.allocated_width * 2) 80)
              cols := fun j =>
                if row.allocated_width ≤ j ∧ j < max (row.allocated_width * 2) 80 then {}
                else row.cols j }
          else a.rows i }
    else a

/-- The cell store of `_ansr_add_char`: write the character code and the current
display state into `(cursor_y, cursor_x)` and log the store. -/
def storeCell (a : Ansr) (ch : Nat) : Ansr :=
  { a with
    rows := fun i =>
      if i = a.cursor_y then
        (a.rows a.cursor_y).map fun row =>
          { row with cols := fun j =>
              if j = a.cursor_x then { code := ch, disp := a.disp } else row.cols j }
      else a.rows i
    writes := a.writes ++ [(a.cursor_y, a.cursor_x, { code := ch, disp := a.disp })] }

/-- The logical-width update at the end of `_ansr_add_char` (runs after the
cursor-column increment). -/
def updateWidth (a : Ansr) : Ansr :=
  match a.rows a.cursor_y with
  | none => a
  | some row =>
    if row.width < a.cursor_x then
      { a with rows := fun i =>
          if i = a.cursor_y then some { row with width := a.cursor_x } else a.rows i }
    else a

/-- `_ansr_add_char`: soft wrap, grow rows, bump logical height, grow/allocate
the cursor row, store the cell, advance the cursor column, update the logical
width.  Allocation is assumed to succeed, so no error path remains. -/
def addChar (a : Ansr) (ch : Nat) : Ansr :=
  let a1 := wrapCursor a
  let a2 := bumpHeight (growRows a1)
  let a3 := storeCell (growCols a2) ch
  updateWidth { a3 with cursor_x := u32n (a3.cursor_x + 1) }

/-- The `ANSR_STATE_INPUT` switch of `ansr_write`.  `none` models the
`assert(0)` arms (HT, FF). -/
def inputByte (a : Ansr) (c : Nat) : Option Ansr :=
  if c = 0x7 then some a
  else if c = 0x8 then
    some (if 0 < a.cursor_x then { a with cursor_x := a.cursor_x - 1 } else a)
  else if c = 0x9 then none
  else if c = 0xa then some { a with cursor_y := u32n (a.cursor_y + 1) }
  else if c = 0xc then none
  else if c = 0xd then some { a with cursor_x := 0 }
  else if c = 0x1a then some { a with state := .eof }
  else if c = 0x1b then some { a with state := .escape }
  else if c = 0x7f then some a
  else some (addChar a c)

/-- `_ansr_params_append_accumulator`, wrapped in the callers' `assert(!...)`:
an accumulator above `0xff` fails the assertion (`none`); otherwise the low
byte is appended as a `char` and the accumulator cleared. -/
def appendAccumulator (a : Ansr) : Option Ansr :=
  if 255 < a.accumulator then none
  else some { a with params := a.params ++ [sc a.accumulator], accumulator := 0 }

/-- The first `switch (c)` of the `ANSR_STATE_CSI` arm: digit accumulation,
`';'` finalization, final bytes finalizing the accumulator, and the
`assert(0)` arms for unsupported parameter/intermediate bytes. -/
def csiParamByte (a : Ansr) (c : Nat) : Option Ansr :=
  if 0x30 ≤ c ∧ c ≤ 0x39 then
    some { a with accumulator := u32n (a.accumulator * 10 + (c - 0x30)) }
  else if c = 0x3a then none
  else if c = 0x3b then appendAccumulator a
  else if 0x3c ≤ c ∧ c ≤ 0x3f then none
  else if 0x20 ≤ c ∧ c ≤ 0x2f then none
  else if (0x40 ≤ c ∧ c ≤ 0x6f) ∨ (0x70 ≤ c ∧ c ≤ 0x7e) then appendAccumulator a
  else none

/-- The second ("final byte") `switch (c)` of the `ANSR_STATE_CSI` arm.
A byte matching none of the cases leaves the state machine in CSI. -/
def finalByte (a : Ansr) (c : Nat) : Option Ansr :=
  if c = 0x41 then
    let n : Nat := if a.params = [] then 1 else u32i (a.params.getD 0 0)
    some { a with cursor_y := a.cursor_y - min a.cursor_y n, state := .input }
  else if c = 0x42 then
    some { a with
      cursor_y := if a.params = [] then u32n (a.cursor_y + 1)
                  else u32i ((a.cursor_y : Int) + a.params.getD 0 0)
      state := .input }
  else if c = 0x43 then
    some { a with
      cursor_x := if a.params = [] then u32n (a.cursor_x + 1)
                  else u32i ((a.cursor_x : Int) + a.params.getD 0 0)
      state := .input }
  else if c = 0x44 ∨ c = 0x45 ∨ c = 0x46 then none
  else if c = 0x47 then
    some { a with
      cursor_x := if a.params = [] then 0 else u32i (a.params.getD 0 0 - 1)
      state := .input }
  else if c = 0x48 then
    some { a with
      cursor_y := if 1 ≤ a.params.length then u32i (a.params.getD 0 0 - 1) else 0
      cursor_x := if a.params.length = 2 then u32i (a.params.getD 1 0 - 1) else 0
      state := .input }
  else if c = 0x49 ∨ c = 0x4b ∨ c = 0x53 ∨ c = 0x54 ∨ c = 0x66 then none
  else if c = 0x4a then some { a with state := .input }
  else if c = 0x6d then
    match sgrRun a.disp a.params with
    | none => none
    | some d => some { a with disp := d, state := .input }
  else if 0x70 ≤ c ∧ c ≤ 0x7e then some { a with state := .input }
  else some a

/-- One iteration of the byte loop of `ansr_write`. -/
def processByte (a : Ansr) (c : Nat) : Option Ansr :=
  match a.state with
  | .input => inputByte a c
  | .eof => some a
  | .escape =>
    if c = 0x5b then some { a with state := .csi, accumulator := 0, params := [] }
    else none
  | .csi =>
    match csiParamByte a c with
    | none => none
    | some a' => finalByte a' c

/-- The byte loop of `ansr_write`. -/
def runBytes : Ansr → List Nat → Option Ansr
  | a, [] => some a
  | a, c :: cs =>
    match processByte a c with
    | none => none
    | some a' => runBytes a' cs

/-- `ansr_write` proper: process every byte; the only `return` statement in the
function returns `0`. -/
def ansrWrite (a : Ansr) (input : List Nat) : Option (Ansr × Int) :=
  (runBytes a input).map fun a' => (a', 0)

/-- The state after a feed, defaulting to the initial state (used to phrase
theorems about the post-state without an existential). -/
def runD (a : Ansr) (input : List Nat) : Ansr :=
  (runBytes a input).getD a

/-! ## Small evaluation and arithmetic lemmas -/

lemma u32n_small {n : Nat} (h : n < 4294967296) : u32n n = n :=
  Nat.mod_eq_of_lt h

/-! ## Claim theorems: closed evaluations -/

/-- C1: feeding `ESC [ 9 9 9 m` (parameter accumulator 999 > 255) to a fresh
renderer does not report a negative error code to the caller: the
`-EOVERFLOW` result of `_ansr_params_append_accumulator` is consumed by
`assert(!...)` inside `ansr_write`, so the call aborts the process (modelled
`none`) instead of returning an error, even though `ansr_write` is documented
to return a negative value on error. -/
theorem c1_overflow_asserts_instead_of_error :
    ansrWrite (ansrNew 80 24) [0x1b, 0x5b, 0x39, 0x39, 0x39, 0x6d] = none := by
  rfl

/-- C2: writing a character with the cursor at row 99 of a fresh renderer
(`ESC [ 9 9 B` then `'a'`) grows the allocated height only to
`MAX(64, 2*0) = 64`, which is less than the required `R + 1 = 100`; the
subsequent row-pointer access in the C code is out of bounds. -/
theorem c2_row_capacity_not_reached :
    ((runBytes (ansrNew 80 24) [0x1b, 0x5b, 0x39, 0x39, 0x42, 0x61]).map
      fun s => (s.cursor_y, s.height, s.allocated_height)) = some (99, 100, 64) ∧
    64 < 99 + 1 := by
  exact ⟨rfl, by decide⟩

/-- C6: writing a character with the cursor at column 99 of a fresh row
(`ESC [ 9 9 C` then `'a'`) leaves the row with logical width 100 but
allocated width only `MAX(0*2, 80) = 80`, violating the invariant
`logical width ≤ allocated width`; the cell store in the C code is out of
bounds. -/
theorem c6_width_invariant_violated :
    ((runBytes (ansrNew 80 24) [0x1b, 0x5b, 0x39, 0x39, 0x43, 0x61]).map
      fun s => ((getRow s 0).width, (getRow s 0).allocated_width)) = some (100, 80) ∧
    80 < 100 := by
  exact ⟨rfl, by decide⟩

/-- C7: `ESC [ 5 ; 10 H` does set the cursor to row 4, column 9; but
`ESC [ H` sets the row to `4294967295`, not 0, because every CSI final byte
first finalizes the accumulator, so the dispatch sees the parameter list
`[0]` and computes `(unsigned)(0 - 1)`; and `ESC [ 5 ; 10 ; 7 H` (three
parameters, second present) sets the column to 0, not 9, because the code
uses the second parameter only when the parameter count is exactly 2. -/
theorem c7_cursor_position_dispatch :
    ((runBytes (ansrNew 80 24) [0x1b, 0x5b, 0x35, 0x3b, 0x31, 0x30, 0x48]).map
      fun s => (s.cursor_y, s.cursor_x)) = some (4, 9) ∧
    ((runBytes (ansrNew 80 24) [0x1b, 0x5b, 0x48]).map
      fun s => (s.cursor_y, s.cursor_x)) = some (4294967295, 0) ∧
    (4294967295 : Nat) ≠ 0 ∧
    ((runBytes (ansrNew 80 24) [0x1b, 0x5b, 0x35, 0x3b, 0x31, 0x30, 0x3b, 0x37, 0x48]).map
      fun s => (s.cursor_y, s.cursor_x)) = some (4, 0) ∧
    (0 : Nat) ≠ 10 - 1 := by
  exact ⟨rfl, rfl, by decide, rfl, by decide⟩

/-- C9: a CSI Cursor Position sequence whose first finalized parameter is 0
(`ESC [ 0 H`) sets the cursor row to the unsigned wraparound `2^32 - 1`, and
`ESC [ 0 G` does the same to the column. -/
theorem c9_param_zero_wraparound :
    ((runBytes (ansrNew 80 24) [0x1b, 0x5b, 0x30, 0x48]).map
      fun s => (s.cursor_y, s.cursor_x)) = some (4294967295, 0) ∧
    ((runBytes (ansrNew 80 24) [0x1b, 0x5b, 0x30, 0x47]).map
      fun s => s.cursor_x) = some 4294967295 := by
  exact ⟨rfl, rfl⟩

/-- C3 (counterexample): one printable byte fed to a fresh renderer with
screen width 1 leaves the cursor at row 0, column 1 — not at
row `N / W = 1`, column `N % W = 0` as the claim states (the soft wrap is
deferred until the next character is written). -/
theorem c3_final_cursor_counterexample :
    ((runBytes (ansrNew 1 24) [0x61]).map fun s => (s.cursor_y, s.cursor_x))
      = some (0, 1) ∧
    ((0 : Nat), (1 : Nat)) ≠ (1 / 1, 1 % 1) := by
  exact ⟨rfl, by decide⟩

/-- C8 (counterexample): after writing `'a'` at the origin of a fresh
renderer, the cell at column 1 of row 0 (allocated, never written) carries
the all-zero display state, whose foreground is black — not the baseline
(`_ansr_sgr_reset`) foreground white that the claim asserts. -/
theorem c8_unwritten_cell_not_baseline :
    ((runBytes (ansrNew 80 24) [0x61]).map
      fun s => ((getCell s 0 1).disp.fg, (getRow s 0).allocated_width, (getRow s 0).width))
      = some (AnsrColor.black, 80, 1) ∧
    AnsrColor.black ≠ AnsrColor.white := by
  exact ⟨rfl, by decide⟩

/-- C5: SGR with an empty parameter list and SGR with the one-element list
`[0]` both replace any starting display state with the baseline
(foreground white, background black, all attributes cleared). -/
theorem c5_sgr_empty_equals_sgr_zero (d : AnsrDispState) :
    sgrRun d [] = some sgrBaseline ∧ sgrRun d [0] = some sgrBaseline := by
  exact ⟨rfl, rfl⟩

/-! ## Parser-state branch lemmas -/

lemma processByte_input {a : Ansr} (h : a.state = .input) (c : Nat) :
    processByte a c = inputByte a c := by
  unfold processByte
  rw [h]

lemma processByte_eof {a : Ansr} (h : a.state = .eof) (c : Nat) :
    processByte a c = some a := by
  unfold processByte
  rw [h]

lemma runBytes_eof {a : Ansr} (h : a.state = .eof) :
    ∀ bs : List Nat, runBytes a bs = some a := by
  intro bs
  induction bs with
  | nil => rfl
  | cons c cs ih =>
    rw [runBytes, processByte_eof h]
    exact ih

/-- C4: from the `Input` state, byte `0x1A` (SUB) moves the machine to the
`EndOfStream` state and every subsequently fed byte — any list `bs` — is
discarded: the resulting renderer is exactly the original with only the
parser state set to `EndOfStream` (grid, logical dimensions, cursor and all
other fields unchanged), and the call returns success (0).  In particular no
transition leaves `EndOfStream`, since the final state is still
`EndOfStream` for every `bs`. -/
theorem c4_eof_absorbs (s : Ansr) (bs : List Nat) (h : s.state = .input) :
    ansrWrite s (0x1a :: bs) = some ({ s with state := ParserState.eof }, 0) := by
  have h1 : processByte s 0x1a = some { s with state := ParserState.eof } := by
    rw [processByte_input h]
    rfl
  have h2 : runBytes s (0x1a :: bs) = runBytes { s with state := ParserState.eof } bs := by
    rw [runBytes, h1]
  unfold ansrWrite
  rw [h2, runBytes_eof rfl]
  rfl

/-- C4 witness: a concrete instance of `c4_eof_absorbs` on a fresh renderer
followed by the byte `'A'`. -/
theorem c4_eof_absorbs_witness :
    ansrWrite (ansrNew 80 24) [0x1a, 0x41]
      = some ({ ansrNew 80 24 with state := ParserState.eof }, 0) :=
  c4_eof_absorbs (ansrNew 80 24) [0x41] rfl

/-! ## SGR parameters with no switch case -/

/-- The SGR parameter values `{56, 57, 66..72, 76..89}` that match no case of
`_ansr_sgr`'s switch. -/
def sgrIgnoredParams : List Int :=
  [56, 57, 66, 67, 68, 69, 70, 71, 72,
   76, 77, 78, 79, 80, 81, 82, 83, 84, 85, 86, 87, 88, 89]

lemma sgrRunList_ignored {p : Int} (hid : ∀ d, sgrStep d p = some d) :
    ∀ (l1 : List Int) (d : AnsrDispState) (l2 : List Int),
      sgrRunList d (l1 ++ p :: l2) = sgrRunList d (l1 ++ l2) := by
  intro l1
  induction l1 with
  | nil =>
    intro d l2
    simp only [List.nil_append, sgrRunList, hid d]
  | cons q l1 ih =>
    intro d l2
    simp only [List.cons_append, sgrRunList]
    cases sgrStep d q with
    | none => rfl
    | some d' => exact ih d' l2

/-- C10: every SGR parameter value in `{56, 57, 66..72, 76..89}` matches no
case of the `_ansr_sgr` dispatch and there is no default arm, so it is
silently ignored: applying it changes nothing in the display state and does
not abort, and an SGR parameter list containing it behaves exactly like the
list with it removed. -/
theorem c10_sgr_unhandled_params_ignored (p : Int) (hp : p ∈ sgrIgnoredParams) :
    (∀ d : AnsrDispState, sgrStep d p = some d) ∧
    (∀ (d : AnsrDispState) (l1 l2 : List Int),
      sgrRunList d (l1 ++ p :: l2) = sgrRunList d (l1 ++ l2)) := by
  have hid : ∀ d : AnsrDispState, sgrStep d p = some d := by
    fin_cases hp <;> (intro d; rfl)
  exact ⟨hid, fun d l1 l2 => sgrRunList_ignored hid l1 d l2⟩

/-- C10 witness: SGR parameter 56 applied to the baseline display state is a
no-op. -/
theorem c10_sgr_unhandled_params_ignored_witness :
    sgrStep sgrBaseline 56 = some sgrBaseline :=
  (c10_sgr_unhandled_params_ignored 56 (by decide)).1 sgrBaseline

/-! ## Projection lemmas for the `_ansr_add_char` stages -/

@[simp] lemma wrapCursor_state (a : Ansr) : (wrapCursor a).state = a.state := by
  unfold wrapCursor; split <;> rfl

@[simp] lemma wrapCursor_disp (a : Ansr) : (wrapCursor a).disp = a.disp := by
  unfold wrapCursor; split <;> rfl

@[simp] lemma wrapCursor_screen_width (a : Ansr) :
    (wrapCursor a).screen_width = a.screen_width := by
  unfold wrapCursor; split <;> rfl

@[simp] lemma wrapCursor_writes (a : Ansr) : (wrapCursor a).writes = a.writes := by
  unfold wrapCursor; split <;> rfl

@[simp] lemma wrapCursor_rows (a : Ansr) : (wrapCursor a).rows = a.rows := by
  unfold wrapCursor; split <;> rfl

lemma wrapCursor_pos {a : Ansr} (h : a.screen_width ≠ 0 ∧ a.cursor_x = a.screen_width) :
    wrapCursor a = { a with cursor_x := 0, cursor_y := u32n (a.cursor_y + 1) } := by
  unfold wrapCursor; rw [if_pos h]

lemma wrapCursor_neg {a : Ansr} (h : ¬(a.screen_width ≠ 0 ∧ a.cursor_x = a.screen_width)) :
    wrapCursor a = a := by
  unfold wrapCursor; rw [if_neg h]

@[simp] lemma growRows_state (a : Ansr) : (growRows a).state = a.state := by
  unfold growRows; split <;> rfl

@[simp] lemma growRows_disp (a : Ansr) : (growRows a).disp = a.disp := by
  unfold growRows; split <;> rfl

@[simp] lemma growRows_screen_width (a : Ansr) :
    (growRows a).screen_width = a.screen_width := by
  unfold growRows; split <;> rfl

@[simp] lemma growRows_writes (a : Ansr) : (growRows a).writes = a.writes := by
  unfold growRows; split <;> rfl

@[simp] lemma growRows_rows (a : Ansr) : (growRows a).rows = a.rows := by
  unfold growRows; split <;> rfl

@[simp] lemma growRows_cursor_x (a : Ansr) : (growRows a).cursor_x = a.cursor_x := by
  unfold growRows; split <;> rfl

@[simp] lemma growRows_cursor_y (a : Ansr) : (growRows a).cursor_y = a.cursor_y := by
  unfold growRows; split <;> rfl

@[simp] lemma bumpHeight_state (a : Ansr) : (bumpHeight a).state = a.state := by
  unfold bumpHeight; split <;> rfl

@[simp] lemma bumpHeight_disp (a : Ansr) : (bumpHeight a).disp = a.disp := by
  unfold bumpHeight; split <;> rfl

@[simp] lemma bumpHeight_screen_width (a : Ansr) :
    (bumpHeight a).screen_width = a.screen_width := by
  unfold bumpHeight; split <;> rfl

@[simp] lemma bumpHeight_writes (a : Ansr) : (bumpHeight a).writes = a.writes := by
  unfold bumpHeight; split <;> rfl

@[simp] lemma bumpHeight_rows (a : Ansr) : (bumpHeight a).rows = a.rows := by
  unfold bumpHeight; split <;> rfl

@[simp] lemma bumpHeight_cursor_x (a : Ansr) : (bumpHeight a).cursor_x = a.cursor_x := by
  unfold bumpHeight; split <;> rfl

@[simp] lemma bumpHeight_cursor_y (a : Ansr) : (bumpHeight a).cursor_y = a.cursor_y := by
  unfold bumpHeight; split <;> rfl

@[simp] lemma growCols_state (a : Ansr) : (growCols a).state = a.state := by
  unfold growCols
  split
  · rfl
  · split <;> rfl

@[simp] lemma growCols_disp (a : Ansr) : (growCols a).disp = a.disp := by
  unfold growCols
  split
  · rfl
  · split <;> rfl

@[simp] lemma growCols_screen_width (a : Ansr) :
    (growCols a).screen_width = a.screen_width := by
  unfold growCols
  split
  · rfl
  · split <;> rfl

@[simp] lemma growCols_writes (a : Ansr) : (growCols a).writes = a.writes := by
  unfold growCols
  split
  · rfl
  · split <;> rfl

@[simp] lemma growCols_cursor_x (a : Ansr) : (growCols a).cursor_x = a.cursor_x := by
  unfold growCols
  split
  · rfl
  · split <;> rfl

@[simp] lemma growCols_cursor_y (a : Ansr) : (growCols a).cursor_y = a.cursor_y := by
  unfold growCols
  split
  · rfl
  · split <;> rfl

@[simp] lemma storeCell_state (a : Ansr) (ch : Nat) : (storeCell a ch).state = a.state := rfl

@[simp] lemma storeCell_disp (a : Ansr) (ch : Nat) : (storeCell a ch).disp = a.disp := rfl

@[simp] lemma storeCell_screen_width (a : Ansr) (ch : Nat) :
    (storeCell a ch).screen_width = a.screen_width := rfl

@[simp] lemma storeCell_cursor_x (a : Ansr) (ch : Nat) :
    (storeCell a ch).cursor_x = a.cursor_x := rfl

@[simp] lemma storeCell_cursor_y (a : Ansr) (ch : Nat) :
    (storeCell a ch).cursor_y = a.cursor_y := rfl

@[simp] lemma storeCell_writes (a : Ansr) (ch : Nat) :
    (storeCell a ch).writes
      = a.writes ++ [(a.cursor_y, a.cursor_x, { code := ch, disp := a.disp })] := rfl

@[simp] lemma updateWidth_state (a : Ansr) : (updateWidth a).state = a.state := by
  unfold updateWidth
  split
  · rfl
  · split <;> rfl

@[simp] lemma updateWidth_disp (a : Ansr) : (updateWidth a).disp = a.disp := by
  unfold updateWidth
  split
  · rfl
  · split <;> rfl

@[simp] lemma updateWidth_screen_width (a : Ansr) :
    (updateWidth a).screen_width = a.screen_width := by
  unfold updateWidth
  split
  · rfl
  · split <;> rfl

@[simp] lemma updateWidth_writes (a : Ansr) : (updateWidth a).writes = a.writes := by
  unfold updateWidth
  split
  · rfl
  · split <;> rfl

@[simp] lemma updateWidth_cursor_x (a : Ansr) : (updateWidth a).cursor_x = a.cursor_x := by
  unfold updateWidth
  split
  · rfl
  · split <;> rfl

@[simp] lemma updateWidth_cursor_y (a : Ansr) : (updateWidth a).cursor_y = a.cursor_y := by
  unfold updateWidth
  split
  · rfl
  · split <;> rfl

/-! ## `addChar` projections -/

lemma addChar_state (a : Ansr) (ch : Nat) : (addChar a ch).state = a.state := by
  unfold addChar; simp

lemma addChar_disp (a : Ansr) (ch : Nat) : (addChar a ch).disp = a.disp := by
  unfold addChar; simp

lemma addChar_screen_width (a : Ansr) (ch : Nat) :
    (addChar a ch).screen_width = a.screen_width := by
  unfold addChar; simp

lemma addChar_cursor_y (a : Ansr) (ch : Nat) :
    (addChar a ch).cursor_y = (wrapCursor a).cursor_y := by
  unfold addChar; simp

lemma addChar_cursor_x (a : Ansr) (ch : Nat) :
    (addChar a ch).cursor_x = u32n ((wrapCursor a).cursor_x + 1) := by
  unfold addChar; simp

lemma addChar_writes (a : Ansr) (ch : Nat) :
    (addChar a ch).writes
      = a.writes
        ++ [((wrapCursor a).cursor_y, (wrapCursor a).cursor_x,
             { code := ch, disp := a.disp })] := by
  unfold addChar; simp

/-- Printable bytes reach the `default:` / space arm of the `Input` switch. -/
lemma inputByte_printable {a : Ansr} {c : Nat} (h1 : 0x20 ≤ c) (h2 : c ≤ 0x7e) :
    inputByte a c = some (addChar a c) := by
  unfold inputByte
  split_ifs <;> first | rfl | omega

/-! ## Arithmetic of the deferred soft wrap -/

lemma wrap_arith (W k : Nat) (hW : 0 < W) (hk : 1 ≤ k) :
    ((k - 1) % W + 1 = W → (k - 1) / W + 1 = k / W ∧ k % W = 0) ∧
    ((k - 1) % W + 1 ≠ W → (k - 1) / W = k / W ∧ (k - 1) % W + 1 = k % W) := by
  obtain ⟨j, rfl⟩ : ∃ j, k = j + 1 := ⟨k - 1, by omega⟩
  simp only [Nat.add_sub_cancel]
  have h1 := Nat.div_add_mod j W
  have h2 := Nat.div_add_mod (j + 1) W
  have hm1 : j % W < W := Nat.mod_lt j hW
  have hm2 : (j + 1) % W < W := Nat.mod_lt (j + 1) hW
  have hsd := Nat.succ_div j W
  by_cases hd : W ∣ j + 1
  · have hz : (j + 1) % W = 0 := Nat.mod_eq_zero_of_dvd hd
    rw [if_pos hd] at hsd
    rw [hsd, hz] at h2 ⊢
    rw [Nat.mul_add, Nat.mul_one] at h2
    generalize W * (j / W) = m at h1 h2
    omega
  · have hz : (j + 1) % W ≠ 0 := fun h => hd (Nat.dvd_of_mod_eq_zero h)
    rw [if_neg hd] at hsd
    rw [hsd, Nat.add_zero] at h2 ⊢
    generalize W * (j / W) = m at h1 h2
    omega

/-! ## The printable-only run invariant -/

/-- The write trace of a printable-only run: byte `j` lands at row `j / W`,
column `j % W`, carrying the all-zero display state of a fresh renderer. -/
def printTrace (W : Nat) (bs : List Nat) (k : Nat) : List (Nat × Nat × AnsrChar) :=
  (List.range k).map fun j => (j / W, j % W, { code := bs.getD j 0, disp := {} })

lemma printTrace_succ (W : Nat) (bs : List Nat) (k : Nat) :
    printTrace W bs (k + 1)
      = printTrace W bs k ++ [(k / W, k % W, { code := bs.getD k 0, disp := {} })] := by
  unfold printTrace
  rw [List.range_succ, List.map_append]
  rfl

/-- Invariant after the first `k` bytes of a printable-only stream fed to a
fresh renderer with screen width `W`. -/
def PrintInv (W : Nat) (bs : List Nat) (k : Nat) (a : Ansr) : Prop :=
  a.state = .input ∧ a.disp = {} ∧ a.screen_width = W ∧
  (k = 0 → a.cursor_x = 0 ∧ a.cursor_y = 0) ∧
  (1 ≤ k → a.cursor_x = (k - 1) % W + 1 ∧ a.cursor_y = (k - 1) / W) ∧
  a.writes = printTrace W bs k

lemma printInv_step {W : Nat} {bs : List Nat} {k : Nat} {a : Ansr}
    (hW : 0 < W) (hW2 : W < 4294967296) (hlen : bs.length < 4294967296)
    (hk : k < bs.length) (hInv : PrintInv W bs k a) :
    PrintInv W bs (k + 1) (addChar a (bs.getD k 0)) := by
  obtain ⟨hstate, hdisp, hsw, hc0, hc1, hwr⟩ := hInv
  have htarget : (wrapCursor a).cursor_x = k % W ∧ (wrapCursor a).cursor_y = k / W := by
    rcases Nat.eq_zero_or_pos k with hk0 | hk1
    · subst hk0
      obtain ⟨hx, hy⟩ := hc0 rfl
      have hnw : ¬(a.screen_width ≠ 0 ∧ a.cursor_x = a.screen_width) := by
        rw [hsw, hx]; omega
      rw [wrapCursor_neg hnw, hx, hy, Nat.zero_mod, Nat.zero_div]
      exact ⟨rfl, rfl⟩
    · obtain ⟨hx, hy⟩ := hc1 hk1
      by_cases hwc : (k - 1) % W + 1 = W
      · obtain ⟨hdiv, hmod⟩ := (wrap_arith W k hW hk1).1 hwc
        have hpos : a.screen_width ≠ 0 ∧ a.cursor_x = a.screen_width := by
          rw [hsw, hx, hwc]; omega
        rw [wrapCursor_pos hpos]
        constructor
        · simp [hmod]
        · show u32n (a.cursor_y + 1) = k / W
          rw [hy, ← hdiv]
          exact u32n_small (by
            have := Nat.div_le_self (k - 1) W
            omega)
      · obtain ⟨hdiv, hmod⟩ := (wrap_arith W k hW hk1).2 hwc
        have hnw : ¬(a.screen_width ≠ 0 ∧ a.cursor_x = a.screen_width) := by
          rw [hsw, hx]
          intro hcon
          exact hwc hcon.2
        rw [wrapCursor_neg hnw]
        exact ⟨by rw [hx, hmod], by rw [hy, hdiv]⟩
  refine ⟨?_, ?_, ?_, ?_, ?_, ?_⟩
  · rw [addChar_state, hstate]
  · rw [addChar_disp, hdisp]
  · rw [addChar_screen_width, hsw]
  · omega
  · intro _
    constructor
    · rw [addChar_cursor_x, htarget.1, Nat.add_sub_cancel]
      exact u32n_small (by
        have : k % W < W := Nat.mod_lt k hW
        omega)
    · rw [addChar_cursor_y, htarget.2, Nat.add_sub_cancel]
  · rw [addChar_writes, hwr, htarget.1, htarget.2, hdisp, printTrace_succ]

lemma printInv_run {W : Nat} {bs : List Nat}
    (hW : 0 < W) (hW2 : W < 4294967296) (hlen : bs.length < 4294967296)
    (hpr : ∀ b ∈ bs, 0x20 ≤ b ∧ b ≤ 0x7e) :
    ∀ (m k : Nat) (a : Ansr), k + m = bs.length → PrintInv W bs k a →
      ∃ af, runBytes a (bs.drop k) = some af ∧ PrintInv W bs bs.length af := by
  intro m
  induction m with
  | zero =>
    intro k a hkm hInv
    have hkl : k = bs.length := by omega
    subst hkl
    exact ⟨a, by rw [List.drop_length]; rfl, hInv⟩
  | succ m ih =>
    intro k a hkm hInv
    have hk : k < bs.length := by omega
    have hgd : bs.getD k 0 = bs[k] := List.getD_eq_getElem bs 0 hk
    have hb : 0x20 ≤ bs.getD k 0 ∧ bs.getD k 0 ≤ 0x7e := by
      rw [hgd]
      exact hpr bs[k] (List.getElem_mem hk)
    have hdrop : bs.drop k = bs.getD k 0 :: bs.drop (k + 1) := by
      rw [hgd]
      exact List.drop_eq_getElem_cons hk
    have hstep : processByte a (bs.getD k 0) = some (addChar a (bs.getD k 0)) := by
      rw [processByte_input hInv.1, inputByte_printable hb.1 hb.2]
    have hInv' := printInv_step hW hW2 hlen hk hInv
    obtain ⟨af, hrun, hfin⟩ := ih (k + 1) (addChar a (bs.getD k 0)) (by omega) hInv'
    refine ⟨af, ?_, hfin⟩
    rw [hdrop, runBytes, hstep]
    exact hrun

/-- C3 (amended): feeding a printable-only byte stream of length `N ≥ 1` (bytes
`0x20..0x7E`) to a fresh renderer with screen width `0 < W < 2^32`
(`N < 2^32`) succeeds, writes exactly `N` cells in row-major reading order —
the `k`-th at row `k / W`, column `k % W`, capturing the display state in
effect at write time (the fresh all-zero state) — and leaves the cursor at
row `(N - 1) / W`, column `(N - 1) % W + 1`.  This equals row `N / W`,
column `N mod W` except when `W` divides `N`: the soft wrap is deferred to
the next write, so the cursor then rests at column `W` of the last written
row rather than at column 0 of the next. -/
theorem c3_printable_run (W : Nat) (bs : List Nat) (hW : 0 < W)
    (hW2 : W < 4294967296) (hlen : bs.length < 4294967296) (hne : 1 ≤ bs.length)
    (hpr : ∀ b ∈ bs, 0x20 ≤ b ∧ b ≤ 0x7e) :
    ansrWrite (ansrNew W 24) bs = some (runD (ansrNew W 24) bs, 0) ∧
    (runD (ansrNew W 24) bs).cursor_y = (bs.length - 1) / W ∧
    (runD (ansrNew W 24) bs).cursor_x = (bs.length - 1) % W + 1 ∧
    (runD (ansrNew W 24) bs).writes
      = (List.range bs.length).map
          fun j => (j / W, j % W, { code := bs.getD j 0, disp := {} }) := by
  have hInv0 : PrintInv W bs 0 (ansrNew W 24) :=
    ⟨rfl, rfl, rfl, fun _ => ⟨rfl, rfl⟩, fun h => absurd h (by omega), rfl⟩
  obtain ⟨af, hrun, hfin⟩ :=
    printInv_run hW hW2 hlen hpr bs.length 0 (ansrNew W 24) (by omega) hInv0
  rw [List.drop_zero] at hrun
  have hrd : runD (ansrNew W 24) bs = af := by
    unfold runD
    rw [hrun]
    rfl
  obtain ⟨-, -, -, -, hc1, hwr⟩ := hfin
  obtain ⟨hx, hy⟩ := hc1 hne
  refine ⟨?_, ?_, ?_, ?_⟩
  · unfold ansrWrite
    rw [hrun, hrd]
    rfl
  · rw [hrd, hy]
  · rw [hrd, hx]
  · rw [hrd, hwr]
    rfl

/-- C3 witness: three printable bytes with screen width 2 — two writes in row
0, a wrapped third write at row 1 column 0, final cursor row 1 column 1. -/
theorem c3_printable_run_witness :
    ansrWrite (ansrNew 2 24) [97, 98, 99]
        = some (runD (ansrNew 2 24) [97, 98, 99], 0) ∧
    (runD (ansrNew 2 24) [97, 98, 99]).cursor_y = (3 - 1) / 2 ∧
    (runD (ansrNew 2 24) [97, 98, 99]).cursor_x = (3 - 1) % 2 + 1 ∧
    (runD (ansrNew 2 24) [97, 98, 99]).writes
      = (List.range 3).map
          fun j => (j / 2, j % 2, { code := [97, 98, 99].getD j 0, disp := {} }) :=
  c3_printable_run 2 [97, 98, 99] (by decide) (by decide) (by decide) (by decide)
    (by decide)

set_option maxHeartbeats 1000000

lemma appendAccumulator_pres {a a' : Ansr} (h : appendAccumulator a = some a') :
    a'.rows = a.rows ∧ a'.writes = a.writes := by
  unfold appendAccumulator at h
  split_ifs at h
  injection h with h
  rw [← h]
  exact ⟨rfl, rfl⟩

lemma csiParamByte_pres {a a' : Ansr} {c : Nat} (h : csiParamByte a c = some a') :
    a'.rows = a.rows ∧ a'.writes = a.writes := by
  unfold csiParamByte at h
  split_ifs at h <;>
    first
    | exact appendAccumulator_pres h
    | (injection h with h; rw [← h]; exact ⟨rfl, rfl⟩)

lemma finalByte_pres {a a' : Ansr} {c : Nat} (h : finalByte a c = some a') :
    a'.rows = a.rows ∧ a'.writes = a.writes := by
  unfold finalByte at h
  split_ifs at h
  all_goals
    first
    | (injection h with h; rw [← h]; exact ⟨rfl, rfl⟩)
    | (revert h
       cases hs : sgrRun a.disp a.params <;> intro h
       · exact Option.noConfusion h
       · injection h with h
         rw [← h]
         exact ⟨rfl, rfl⟩)

lemma processByte_escape {a : Ansr} (h : a.state = .escape) (c : Nat) :
    processByte a c
      = if c = 0x5b then some { a with state := .csi, accumulator := 0, params := [] }
        else none := by
  unfold processByte
  rw [h]

lemma processByte_csi {a : Ansr} (h : a.state = .csi) (c : Nat) :
    processByte a c
      = match csiParamByte a c with
        | none => none
        | some a' => finalByte a' c := by
  unfold processByte
  rw [h]

lemma processByte_shape {a a' : Ansr} {c : Nat} (h : processByte a c = some a') :
    (a'.rows = a.rows ∧ a'.writes = a.writes) ∨ (a.state = .input ∧ a' = addChar a c) := by
  cases hs : a.state with
  | input =>
    rw [processByte_input hs] at h
    unfold inputByte at h
    split_ifs at h
    all_goals
      first
      | (left; injection h with h; rw [← h]; exact ⟨rfl, rfl⟩)
      | (right; injection h with h; exact ⟨rfl, h.symm⟩)
  | eof =>
    rw [processByte_eof hs] at h
    injection h with h
    rw [← h]
    left
    exact ⟨rfl, rfl⟩
  | escape =>
    rw [processByte_escape hs] at h
    split_ifs at h
    left
    injection h with h
    rw [← h]
    exact ⟨rfl, rfl⟩
  | csi =>
    rw [processByte_csi hs] at h
    revert h
    cases hc : csiParamByte a c <;> intro h
    · exact Option.noConfusion h
    · rename_i a1
      left
      obtain ⟨h1, h2⟩ := csiParamByte_pres hc
      obtain ⟨h3, h4⟩ := finalByte_pres h
      exact ⟨h3.trans h1, h4.trans h2⟩

lemma getCell_congr {a a' : Ansr} (h : a'.rows = a.rows) (r c : Nat) :
    getCell a' r c = getCell a r c := by
  unfold getCell getRow
  rw [h]

lemma growCols_getCell (a : Ansr) (r c : Nat) :
    getCell (growCols a) r c = getCell a r c ∨ getCell (growCols a) r c = {} := by
  unfold growCols
  split
  case _ hrow =>
    by_cases hr : r = a.cursor_y
    · right
      subst hr
      simp only [getCell, getRow, if_true, Option.getD_some]
    · left
      simp only [getCell, getRow]
      rw [if_neg hr]
  case _ row hrow =>
    split_ifs with hal
    · by_cases hr : r = a.cursor_y
      · subst hr
        simp only [getCell, getRow, if_true, Option.getD_some, hrow]
        by_cases hwipe : row.allocated_width ≤ c ∧ c < max (row.allocated_width * 2) 80
        · right
          rw [if_pos hwipe]
        · left
          rw [if_neg hwipe]
      · left
        simp only [getCell, getRow]
        rw [if_neg hr]
    · left
      rfl

lemma storeCell_getCell_ne {a : Ansr} (ch : Nat) {r c : Nat}
    (h : ¬(r = a.cursor_y ∧ c = a.cursor_x)) :
    getCell (storeCell a ch) r c = getCell a r c := by
  unfold storeCell
  by_cases hr : r = a.cursor_y
  · subst hr
    have hc : c ≠ a.cursor_x := fun hc => h ⟨rfl, hc⟩
    cases hrow : a.rows a.cursor_y with
    | none => simp [getCell, getRow, hrow]
    | some row => simp [getCell, getRow, hrow, hc]
  · simp [getCell, getRow, hr]

lemma updateWidth_getCell (a : Ansr) (r c : Nat) :
    getCell (updateWidth a) r c = getCell a r c := by
  unfold updateWidth
  split
  case _ => rfl
  case _ row hrow =>
    split_ifs with hw
    · by_cases hr : r = a.cursor_y
      · subst hr
        simp [getCell, getRow, hrow]
      · simp [getCell, getRow, hr]
    · rfl

lemma addChar_getCell_ne (a : Ansr) (ch : Nat) {r c : Nat}
    (h : ¬(r = (wrapCursor a).cursor_y ∧ c = (wrapCursor a).cursor_x)) :
    getCell (addChar a ch) r c = getCell a r c ∨ getCell (addChar a ch) r c = {} := by
  have e1 : getCell (addChar a ch) r c
      = getCell (storeCell (growCols (bumpHeight (growRows (wrapCursor a)))) ch) r c := by
    show getCell (updateWidth _) r c = _
    rw [updateWidth_getCell]
    exact getCell_congr rfl r c
  have e2 : getCell (storeCell (growCols (bumpHeight (growRows (wrapCursor a)))) ch) r c
      = getCell (growCols (bumpHeight (growRows (wrapCursor a)))) r c := by
    apply storeCell_getCell_ne
    simpa using h
  rw [e1, e2]
  rcases growCols_getCell (bumpHeight (growRows (wrapCursor a))) r c with h3 | h3
  · left
    rw [h3]
    exact getCell_congr (by simp) r c
  · right
    exact h3

/-- All cells that no entry of the ghost write log targets hold the zero cell
(the `calloc`/`memset` contents): code 0, all-zero display state. -/
def UnwrittenZero (a : Ansr) : Prop :=
  ∀ r c : Nat, (r, c) ∉ a.writes.map (fun z => (z.1, z.2.1)) → getCell a r c = {}

lemma unwrittenZero_addChar {a : Ansr} (ch : Nat) (h : UnwrittenZero a) :
    UnwrittenZero (addChar a ch) := by
  intro r c hmem
  rw [addChar_writes, List.map_append, List.mem_append] at hmem
  push_neg at hmem
  obtain ⟨h1, h2⟩ := hmem
  have hne : ¬(r = (wrapCursor a).cursor_y ∧ c = (wrapCursor a).cursor_x) := by
    intro hcon
    apply h2
    simp [hcon.1, hcon.2]
  rcases addChar_getCell_ne a ch hne with h3 | h3
  · rw [h3]
    exact h r c h1
  · exact h3

lemma unwrittenZero_run :
    ∀ (bs : List Nat) (a af : Ansr),
      UnwrittenZero a → runBytes a bs = some af → UnwrittenZero af := by
  intro bs
  induction bs with
  | nil =>
    intro a af h haf
    injection haf with haf
    rw [← haf]
    exact h
  | cons c cs ih =>
    intro a af h haf
    rw [runBytes] at haf
    revert haf
    cases hp : processByte a c <;> intro haf
    · exact Option.noConfusion haf
    · rename_i a1
      have h1 : UnwrittenZero a1 := by
        rcases processByte_shape hp with ⟨hr, hw⟩ | ⟨-, hadd⟩
        · intro r cc hmem
          rw [hw] at hmem
          rw [getCell_congr hr]
          exact h r cc hmem
        · rw [hadd]
          exact unwrittenZero_addChar c h
      exact ih a1 af h1 haf

lemma unwrittenZero_init (w l : Nat) : UnwrittenZero (ansrNew w l) := by
  intro r c _
  rfl

/-- C8 (amended): every cell of the grid that no cell store has targeted —
including cells merely exposed by capacity growth, below or above a row's
logical width — holds the zero/blank character code together with the
all-zero display state (foreground black, background black, no attributes),
i.e. the `calloc`/`memset` contents.  This all-zero state is not the SGR
reset baseline: the baseline foreground is white, the default cell's
foreground is black (see `c8_unwritten_cell_not_baseline`). -/
theorem c8_unwritten_cells_zero (w l : Nat) (bs : List Nat) (r c : Nat)
    (h1 : (runBytes (ansrNew w l) bs).isSome = true)
    (h2 : (r, c) ∉ (runD (ansrNew w l) bs).writes.map fun z => (z.1, z.2.1)) :
    getCell (runD (ansrNew w l) bs) r c = {} := by
  obtain ⟨af, haf⟩ := Option.isSome_iff_exists.mp h1
  have hrd : runD (ansrNew w l) bs = af := by
    unfold runD
    rw [haf]
    rfl
  rw [hrd] at h2 ⊢
  exact unwrittenZero_run bs (ansrNew w l) af (unwrittenZero_init w l) haf r c h2

/-- C8 witness: after writing `'a'` at the origin, the never-written cell at
row 0 column 1 is the zero cell. -/
theorem c8_unwritten_cells_zero_witness :
    getCell (runD (ansrNew 80 24) [97]) 0 1 = {} :=
  c8_unwritten_cells_zero 80 24 [97] 0 1 rfl (by decide)
